import Mathlib

/-!
# Verification of the flowz core-update and speed-test subsystems

Shallow embedding of `CoreUpdateService` and `SpeedTestService`
(src/renderer — the update orchestrator, version comparator, asset
selection, downloader extension logic, retrying locked-file copy,
backup/restore) and of the IPC speed-test handler
(src/main/ipc/handlers/speed-test-handlers.ts).

External effects (network, filesystem copies, child processes) are
modelled by explicit oracles: an environment record supplies the outcome
of each effectful call, and the embedded functions are total Lean
functions of the environment and the explicit state.  A JavaScript
`throw` that the function itself catches is modelled by `Except` values
that the embedding consumes; "the function never throws" corresponds to
the embedding returning a plain (non-`Except`) result type.
-/

set_option autoImplicit false

namespace Flowz

/-! ## Version comparator (`CoreUpdateService.compareVersions`)

The source splits each version string on `"."`, converts each component
with JavaScript `Number`, and walks the components left to right padding
the shorter list with `0` (`p1[i] || 0`).  On the dotted-numeric domain
of the claim (decimal-digit components), `Number` agrees with
`String.toNat?`, and `|| 0` maps a missing or non-numeric component to
`0`, which `Option.getD 0` reproduces. -/

/-- One version component: JavaScript `Number(c) || 0` on a digit string.
A non-empty all-digit component evaluates to its decimal value; anything
else (empty component, non-digits) reads as `0`, exactly as `Number`
composed with `|| 0` does on the comparator's inputs. -/
def parseComponent (cs : List Char) : Nat :=
  if cs ≠ [] ∧ cs.all (·.isDigit) then
    cs.foldl (fun n c => n * 10 + (c.toNat - '0'.toNat)) 0
  else 0

/-- `v.split('.').map(Number)` of the source, over the string's character
list (`List.splitOn` is the character-level split on `'.'`). -/
def parseVersion (v : String) : List Nat :=
  (v.data.splitOn '.').map parseComponent

/-- Tail of the comparison loop once the left list is exhausted: the left
component reads as `0` (`p1[i] || 0`). -/
def cmpNil : List Nat → Int
  | [] => 0
  | n2 :: p2 => if 0 > n2 then 1 else if 0 < n2 then -1 else cmpNil p2

/-- The component-walking loop of `compareVersions`: pairwise comparison
left to right, missing trailing components read as `0`
(`const n1 = p1[i] || 0`). -/
def cmpComponents : List Nat → List Nat → Int
  | [], p2 => cmpNil p2
  | n1 :: p1, [] =>
      if n1 > 0 then 1 else if n1 < 0 then -1 else cmpComponents p1 []
  | n1 :: p1, n2 :: p2 =>
      if n1 > n2 then 1 else if n1 < n2 then -1 else cmpComponents p1 p2

/-- `CoreUpdateService.compareVersions(v1, v2)`. -/
def compareVersions (v1 v2 : String) : Int :=
  cmpComponents (parseVersion v1) (parseVersion v2)

/-! ## Platforms, architectures and the release feed

`process.platform` / `process.arch` as the source consumes them, plus the
release-feed records (`tag_name`, `prerelease`, `body`, `assets`). -/

inductive Platform where
  | win32
  | darwin
  | linux
  | otherOS
  deriving DecidableEq

inductive Arch where
  | x64
  | arm64
  | otherArch
  deriving DecidableEq

/-- `process.platform` as a string (for the error message text). -/
def Platform.text : Platform → String
  | .win32 => "win32"
  | .darwin => "darwin"
  | .linux => "linux"
  | .otherOS => "other"

/-- `process.arch` as a string (for the error message text). -/
def Arch.text : Arch → String
  | .x64 => "x64"
  | .arm64 => "arm64"
  | .otherArch => "other"

structure ReleaseAsset where
  name : String
  browser_download_url : String
  deriving DecidableEq

structure Release where
  tag_name : String
  prerelease : Bool
  body : String
  assets : List ReleaseAsset
  deriving DecidableEq

structure CoreUpdateCheckResult where
  hasUpdate : Bool
  currentVersion : String
  latestVersion : Option String
  downloadUrl : Option String
  releaseNotes : Option String
  error : Option String
  deriving DecidableEq

/-! ### Kernel-reducible string helpers

JavaScript `String.prototype.includes` / `endsWith` / `toLowerCase`,
implemented structurally over the character list so concrete instances
evaluate inside the kernel. -/

/-- `haystack.includes(needle)` over character lists. -/
def containsSub (needle : List Char) : List Char → Bool
  | [] => needle.isEmpty
  | c :: cs => needle.isPrefixOf (c :: cs) || containsSub needle cs

/-- `s.toLowerCase()` over the character list. -/
def lowerChars (s : String) : List Char :=
  s.data.map Char.toLower

/-- `s.endsWith(suffix)` over character lists. -/
def endsWithChars (s suffix : String) : Bool :=
  suffix.data.isSuffixOf s.data

/-! ### `CoreUpdateService.findSuitableAsset` -/

/-- Platform keyword of `findSuitableAsset` (`windows`/`darwin`/`linux`,
empty for an unmapped platform). -/
def platformKeyword : Platform → String
  | .win32 => "windows"
  | .darwin => "darwin"
  | .linux => "linux"
  | .otherOS => ""

/-- Expected archive extension of `findSuitableAsset`. -/
def platformArchiveExt : Platform → String
  | .win32 => ".zip"
  | .darwin => ".tar.gz"
  | .linux => ".tar.gz"
  | .otherOS => ""

/-- Architecture keyword of `findSuitableAsset` (`amd64` for x64, `arm64`
for arm64, empty otherwise). -/
def archKeyword : Arch → String
  | .x64 => "amd64"
  | .arm64 => "arm64"
  | .otherArch => ""

/-- The predicate of the `assets.find(...)` call: lowercased name contains
the platform and architecture keywords, and the raw name ends with the
platform's archive extension or the `.zip` fallback. -/
def assetMatches (p : Platform) (ar : Arch) (asset : ReleaseAsset) : Bool :=
  containsSub (platformKeyword p).data (lowerChars asset.name) &&
  containsSub (archKeyword ar).data (lowerChars asset.name) &&
  (endsWithChars asset.name (platformArchiveExt p) || endsWithChars asset.name ".zip")

/-- `CoreUpdateService.findSuitableAsset`: first matching asset wins. -/
def findSuitableAsset (p : Platform) (ar : Arch) (assets : List ReleaseAsset) :
    Option ReleaseAsset :=
  assets.find? (assetMatches p ar)

/-! ### `CoreUpdateService.checkUpdate` -/

/-- `tag_name.replace(/^v/, '')`: strip one leading `v`. -/
def stripV (t : String) : String :=
  match t.data with
  | 'v' :: rest => ⟨rest⟩
  | _ => t

/-- Oracle for the effectful calls `checkUpdate` makes: the current-version
query (`getCurrentVersion`, whose rejection lands in the catch-all) and the
release-feed fetch (`fetchReleases`, whose rejection — non-200 status,
parse failure, network error — also lands in the catch-all). -/
structure CheckEnv where
  platform : Platform
  arch : Arch
  getVersion : Except String String
  fetchReleases : Except String (List Release)

/-- The catch-all branch of `checkUpdate`: a structured result with
`currentVersion: '未知'` and the thrown message as `error`. -/
def checkCatch (m : String) : CoreUpdateCheckResult :=
  ⟨false, "未知", none, none, none, some m⟩

/-- `CoreUpdateService.checkUpdate`, a total function of the oracle: every
failure path returns a structured `CoreUpdateCheckResult` (the JavaScript
body is wrapped in a catch-all), never an exception. -/
def checkUpdate (env : CheckEnv) : CoreUpdateCheckResult :=
  match env.getVersion with
  | .error m => checkCatch m
  | .ok currentVersion =>
    match env.fetchReleases with
    | .error m => checkCatch m
    | .ok releases =>
      match releases with
      | [] => ⟨false, currentVersion, none, none, none, some "未找到发布版本"⟩
      | _ :: _ =>
        match releases.filter (fun r => !r.prerelease) with
        | [] => ⟨false, currentVersion, none, none, none, some "未找到正式版本"⟩
        | latestRelease :: _ =>
          let latestVersion := stripV latestRelease.tag_name
          if compareVersions latestVersion currentVersion > 0 then
            match findSuitableAsset env.platform env.arch latestRelease.assets with
            | some asset =>
                ⟨true, currentVersion, some latestVersion,
                 some asset.browser_download_url, some latestRelease.body, none⟩
            | none =>
                ⟨false, currentVersion, none, none, none,
                 some ("未找到适合当前平台的构建 (Platform: " ++ env.platform.text ++
                       ", Arch: " ++ env.arch.text ++ ")")⟩
          else
            ⟨false, currentVersion, none, none, none, none⟩

/-- A concrete check environment whose feed holds only a prerelease entry,
used to witness the `checkUpdate` theorem. -/
def prereleaseOnlyEnv : CheckEnv :=
  ⟨Platform.linux, Arch.x64, Except.ok "1.0.0",
   Except.ok [⟨"v1.1.0", true, "notes", []⟩]⟩

/-! ## Filesystem model

File contents are byte strings; the filesystem maps paths to contents.
`fs.copyFileSync(src, dest)` on success writes the source content at the
destination; on failure the destination may be left unchanged or hold
leftover data, which the oracles below make explicit. -/

def FileSys : Type := String → Option String

def fsWrite (fs : FileSys) (p c : String) : FileSys :=
  fun q => if q = p then some c else fs q

def fsErase (fs : FileSys) (p : String) : FileSys :=
  fun q => if q = p then none else fs q

/-- Destination content after a failed copy: `none` leaves the destination
untouched, `some g` leaves leftover data `g` there. -/
def copyFailFs (fs : FileSys) (dest : String) (l : Option String) : FileSys :=
  match l with
  | none => fs
  | some g => fsWrite fs dest g

/-! ## `CoreUpdateService.copyFileWithRetry`

The retry loop `for (let i = 0; i < retries; i++)`, with the per-attempt
`fs.copyFileSync` outcome supplied by an oracle.  Besides its result and
filesystem effect the embedding records a trace of externally visible
events: each copy attempt, the Windows `taskkill` mitigation, and the
backoff sleeps. -/

inductive CopyOutcome where
  | ok
  | err (code : String) (msg : String)
  deriving DecidableEq

def CopyOutcome.isOk : CopyOutcome → Bool
  | .ok => true
  | .err _ _ => false

/-- A failing outcome whose error code triggers the Windows force-kill
mitigation (`EBUSY` or `EPERM`). -/
def CopyOutcome.isBusyErr : CopyOutcome → Bool
  | .ok => false
  | .err code _ => decide (code = "EBUSY" ∨ code = "EPERM")

inductive CopyEvent where
  | attempt (i : Nat)
  | taskkill
  | sleep (ms : Nat)
  deriving DecidableEq

def CopyEvent.isAttempt : CopyEvent → Bool
  | .attempt _ => true
  | _ => false

/-- Oracle for the copy loop: outcome of attempt `i`, and the leftover data a
failed attempt `i` leaves at the destination. -/
structure CopyEnv where
  outcomes : Nat → CopyOutcome
  leftover : Nat → Option String

structure CopyRun where
  fs : FileSys
  trace : List CopyEvent
  result : Except (String × String) Unit

/-- The loop body of `copyFileWithRetry`, structurally recursive on the
remaining attempt budget; `i` is the current attempt index.  On the last
allowed attempt (`i === retries - 1`, i.e. no budget remains after it) the
error is propagated; otherwise, on Windows with an `EBUSY`/`EPERM` code,
`taskkill /F /IM sing-box.exe` runs followed by a 1s wait, and every
non-final failure is followed by the fixed 1s backoff before retrying. -/
def copyRetryGo (platform : Platform) (cenv : CopyEnv) (srcContent dest : String) :
    Nat → Nat → FileSys → CopyRun
  | 0, _, fs => ⟨fs, [], Except.ok ()⟩
  | remaining + 1, i, fs =>
      match cenv.outcomes i with
      | .ok => ⟨fsWrite fs dest srcContent, [CopyEvent.attempt i], Except.ok ()⟩
      | .err code msg =>
          let fs1 := copyFailFs fs dest (cenv.leftover i)
          if remaining = 0 then
            ⟨fs1, [CopyEvent.attempt i], Except.error (code, msg)⟩
          else
            let killEvs :=
              if platform = Platform.win32 ∧ (code = "EBUSY" ∨ code = "EPERM") then
                [CopyEvent.taskkill, CopyEvent.sleep 1000]
              else []
            let rest := copyRetryGo platform cenv srcContent dest remaining (i + 1) fs1
            ⟨rest.fs, CopyEvent.attempt i :: (killEvs ++ CopyEvent.sleep 1000 :: rest.trace),
             rest.result⟩

/-- `CoreUpdateService.copyFileWithRetry(src, dest, retries)`. -/
def copyFileWithRetry (platform : Platform) (cenv : CopyEnv) (srcContent dest : String)
    (retries : Nat) (fs : FileSys) : CopyRun :=
  copyRetryGo platform cenv srcContent dest retries 0 fs

/-! ## `CoreUpdateService.updateCore`

State threaded through the orchestrator: the filesystem and the
single-flight `isUpdating` flag.  The oracle fixes the outcome of each
effectful step (download, extraction, proxy stop, the backup copy, the
install-copy attempts, the restore copy). -/

structure SysState where
  fs : FileSys
  isUpdating : Bool

structure UpdateEnv where
  platform : Platform
  /-- `resourceManager.getSingBoxPath()`. -/
  singBoxPath : String
  /-- Temp download target chosen by `downloadFile`. -/
  tempPath : String
  /-- Download outcome; on success, the archive content written at `tempPath`. -/
  download : Except String String
  /-- Extraction outcome; on success, the located executable's path and content. -/
  extract : Except String (String × String)
  /-- `corePath.includes(app.getPath('temp'))` of the cleanup step. -/
  corePathInTemp : Bool
  /-- `proxyManager.getStatus().running`. -/
  proxyRunning : Bool
  /-- Outcome of `proxyManager.stop()` (plus the settle delay). -/
  stopResult : Except String Unit
  /-- Outcome of the backup `fs.copyFileSync(currentPath, backupPath)`. -/
  backupOk : Bool
  backupErrMsg : String
  backupLeftover : Option String
  /-- Per-attempt oracle of the install `copyFileWithRetry`. -/
  copy : CopyEnv
  /-- Outcome of the restore `fs.copyFileSync(backupPath, currentPath)`. -/
  restoreOk : Bool
  restoreLeftover : Option String

/-- `getBackupPath()`: the sibling `<path>.bak`. -/
def backupPath (env : UpdateEnv) : String :=
  env.singBoxPath ++ ".bak"

/-- `restoreBackup()`: if the backup file exists, copy it over the install
path (a failure of that copy is swallowed); otherwise do nothing.  `chmod`
does not change content and is not modelled. -/
def restoreBackup (env : UpdateEnv) (fs : FileSys) : FileSys :=
  match fs (backupPath env) with
  | none => fs
  | some c =>
      if env.restoreOk then fsWrite fs env.singBoxPath c
      else copyFailFs fs env.singBoxPath env.restoreLeftover

/-- `backupCurrentCore()`: copy the installed binary to `<path>.bak` when it
exists; a failing copy throws into `updateCore`'s catch branch. -/
def backupStep (env : UpdateEnv) (fs : FileSys) : FileSys × Except String Unit :=
  match fs env.singBoxPath with
  | none => (fs, Except.ok ())
  | some cur =>
      if env.backupOk then (fsWrite fs (backupPath env) cur, Except.ok ())
      else (copyFailFs fs (backupPath env) env.backupLeftover,
            Except.error env.backupErrMsg)

/-- The catch branch of `updateCore`: attempt `restoreBackup`, re-raise the
original error; the `finally` clears the single-flight flag. -/
def updateFail (env : UpdateEnv) (fs : FileSys) (m : String) :
    SysState × Except String Bool :=
  (⟨restoreBackup env fs, false⟩, Except.error m)

/-- Step 6 of `updateCore`: best-effort deletion of the temp download and,
when it is a distinct file inside the temp directory, the extracted
executable (errors swallowed). -/
def cleanupStep (env : UpdateEnv) (corePath : String) (fs : FileSys) : FileSys :=
  let fs1 := fsErase fs env.tempPath
  if env.corePathInTemp ∧ corePath ≠ env.tempPath then fsErase fs1 corePath else fs1

/-- `CoreUpdateService.updateCore(downloadUrl)`: busy rejection, then
download → extract → stop proxy → backup → install copy (3 attempts) →
chmod → cleanup, with the catch branch restoring the backup and re-raising,
and the `finally` clearing `isUpdating` on every path that entered the
try block. -/
def updateCore (env : UpdateEnv) (st : SysState) : SysState × Except String Bool :=
  if st.isUpdating then (st, Except.error "更新正在进行中")
  else
    match env.download with
    | .error m => updateFail env st.fs m
    | .ok dlContent =>
        let fs1 := fsWrite st.fs env.tempPath dlContent
        match env.extract with
        | .error m => updateFail env fs1 m
        | .ok (corePath, newContent) =>
            let fs2 := fsWrite fs1 corePath newContent
            match (if env.proxyRunning then env.stopResult else Except.ok ()) with
            | .error m => updateFail env fs2 m
            | .ok _ =>
                let bk := backupStep env fs2
                match bk.2 with
                | .error m => updateFail env bk.1 m
                | .ok _ =>
                    let cp := copyFileWithRetry env.platform env.copy newContent
                        env.singBoxPath 3 bk.1
                    match cp.result with
                    | .error e => updateFail env cp.fs e.2
                    | .ok _ =>
                        (⟨cleanupStep env corePath cp.fs, false⟩, Except.ok true)

/-! ## Speed-test data model (`SpeedTestService`)

The abstract server profile as `generateTempConfig` reads it.  Optional
JavaScript fields are `Option`s; JavaScript truthiness on strings (where
`''` is falsy) is made explicit by `truthyStr`. -/

/-- JavaScript truthiness on an optional string: `undefined` and `''` are
falsy. -/
def truthyStr : Option String → Option String
  | some s => if s = "" then none else some s
  | none => none

structure WsSettings where
  path : Option String
  /-- `wsSettings.headers?.Host`. -/
  hostHeader : Option String
  deriving DecidableEq

structure ObfsSettings where
  type : String
  password : String
  deriving DecidableEq

structure Hysteria2Settings where
  obfs : Option ObfsSettings
  deriving DecidableEq

structure ShadowsocksSettings where
  method : Option String
  password : Option String
  deriving DecidableEq

structure TlsSettings where
  serverName : Option String
  allowInsecure : Option Bool
  alpn : Option (List String)
  deriving DecidableEq

structure RealitySettings where
  publicKey : String
  shortId : Option String
  deriving DecidableEq

structure ServerConfig where
  id : String
  name : String
  protocol : String
  address : String
  port : Nat
  uuid : Option String
  flow : Option String
  password : Option String
  network : Option String
  wsSettings : Option WsSettings
  hysteria2Settings : Option Hysteria2Settings
  shadowsocksSettings : Option ShadowsocksSettings
  security : Option String
  tlsSettings : Option TlsSettings
  realitySettings : Option RealitySettings
  deriving DecidableEq

/-! ## `SpeedTestService.generateTempConfig` -/

structure Transport where
  type : String
  path : Option String
  /-- `transport.headers.Host` when set. -/
  headersHost : Option String
  deriving DecidableEq

structure RealityOut where
  enabled : Bool
  public_key : String
  short_id : String
  deriving DecidableEq

structure TlsOut where
  enabled : Bool
  server_name : String
  insecure : Bool
  alpn : Option (List String)
  reality : Option RealityOut
  deriving DecidableEq

structure Outbound where
  type : String
  tag : String
  server : String
  server_port : Nat
  uuid : Option String
  flow : Option String
  password : Option String
  method : Option String
  transport : Option Transport
  obfs : Option ObfsSettings
  tls : Option TlsOut
  deriving DecidableEq

structure Inbound where
  type : String
  tag : String
  listen : String
  listen_port : Nat
  deriving DecidableEq

structure TempConfig where
  logLevel : String
  inbounds : List Inbound
  outbounds : List Outbound
  deriving DecidableEq

/-- `server.protocol.toLowerCase()`. -/
def protocolOf (server : ServerConfig) : String :=
  ⟨lowerChars server.protocol⟩

/-- The transport block shared by the vless and trojan branches:
`if (server.network)` adds `transport = {type: network}`, and when the
network is `ws` and `wsSettings` is present, `path` (defaulting `'/'`) and,
for a truthy `headers?.Host`, the `Host` header. -/
def wsTransportOf (network : Option String) (ws : Option WsSettings) : Option Transport :=
  match truthyStr network with
  | none => none
  | some nw =>
      if nw = "ws" then
        match ws with
        | some w => some ⟨nw, some ((truthyStr w.path).getD "/"), truthyStr w.hostHeader⟩
        | none => some ⟨nw, none, none⟩
      else some ⟨nw, none, none⟩

/-- The TLS block: `server_name` falls back to the address, `insecure` to
`false`; `alpn` is copied when the field is present; the reality block is
added for `security === 'reality'` with `realitySettings` present. -/
def tlsOf (server : ServerConfig) : TlsOut :=
  ⟨true,
   (truthyStr (server.tlsSettings.bind TlsSettings.serverName)).getD server.address,
   (server.tlsSettings.bind TlsSettings.allowInsecure).getD false,
   server.tlsSettings.bind TlsSettings.alpn,
   if server.security = some "reality" then
     match server.realitySettings with
     | some rs => some ⟨true, rs.publicKey, (truthyStr rs.shortId).getD ""⟩
     | none => none
   else none⟩

/-- `SpeedTestService.generateTempConfig(server, port)`. -/
def generateTempConfig (server : ServerConfig) (port : Nat) : TempConfig :=
  let protocol := protocolOf server
  let base : Outbound :=
    ⟨protocol, "proxy", server.address, server.port, none, none, none, none, none, none, none⟩
  let ob1 :=
    if protocol = "vless" then
      { base with
        uuid := server.uuid
        flow := some (server.flow.getD "")
        transport := wsTransportOf server.network server.wsSettings }
    else if protocol = "trojan" then
      { base with
        password := server.password
        transport := wsTransportOf server.network server.wsSettings }
    else if protocol = "hysteria2" then
      { base with
        password := server.password
        obfs := server.hysteria2Settings.bind Hysteria2Settings.obfs }
    else if protocol = "shadowsocks" then
      { base with
        method := some ((truthyStr (server.shadowsocksSettings.bind
          ShadowsocksSettings.method)).getD "aes-256-gcm")
        password := some ((truthyStr (server.shadowsocksSettings.bind
          ShadowsocksSettings.password)).getD "") }
    else base
  let ob2 :=
    if server.security = some "tls" ∨ server.security = some "reality" then
      { ob1 with tls := some (tlsOf server) }
    else ob1
  ⟨"error", [⟨"socks", "socks-in", "127.0.0.1", port⟩], [ob2]⟩

/-! ## `SpeedTestService.testServer` and `testAllServers`

A probe runs configuration synthesis → process spawn with readiness wait →
port polling → SOCKS5-relayed HTTP request, each effectful stage's outcome
supplied by the oracle (the random local port and the synthesized
configuration are consumed by the spawned process, which the oracle
absorbs).  The embedding is a total function into `SpeedTestResult`: the
JavaScript `try`/`catch` turns every stage failure into a per-server
result, nothing escapes to the batch. -/

structure ProbeEnv where
  /-- `startTempSingbox`: spawn + readiness marker within 2s. -/
  startResult : Except String Unit
  /-- `waitForPort`: TCP connect within the 3s poll window. -/
  portResult : Except String Unit
  /-- `httpGetViaSocks`: tunnel + first HTTP status line within 10s. -/
  httpResult : Except String Unit
  /-- The measured wall-clock latency on success. -/
  elapsedMs : Nat

structure SpeedTestResult where
  serverId : String
  latency : Option Nat
  error : Option String
  deriving DecidableEq

def exOk {ε α : Type} : Except ε α → Bool
  | .ok _ => true
  | .error _ => false

/-- The probe reached no successful HTTP response. -/
def ProbeEnv.failed (pe : ProbeEnv) : Bool :=
  !(exOk pe.startResult && exOk pe.portResult && exOk pe.httpResult)

/-- `SpeedTestService.testServer(server)`. -/
def testServer (env : ServerConfig → ProbeEnv) (server : ServerConfig) : SpeedTestResult :=
  match (env server).startResult with
  | .error m => ⟨server.id, none, some m⟩
  | .ok _ =>
      match (env server).portResult with
      | .error m => ⟨server.id, none, some m⟩
      | .ok _ =>
          match (env server).httpResult with
          | .error m => ⟨server.id, none, some m⟩
          | .ok _ => ⟨server.id, some (env server).elapsedMs, none⟩

/-- JavaScript `Map.prototype.set` / object property write on a map kept as
an insertion-ordered association list: overwrite in place, else append. -/
def mapSet {β : Type} (m : List (String × β)) (k : String) (v : β) : List (String × β) :=
  if m.any (fun p => decide (p.1 = k)) then
    m.map (fun p => if p.1 = k then (k, v) else p)
  else m ++ [(k, v)]

/-- Lookup in the association-list map. -/
def lookupKey {β : Type} : List (String × β) → String → Option β
  | [], _ => none
  | (a, b) :: t, k => if a = k then some b else lookupKey t k

/-- `MAX_CONCURRENT = 5`: the fixed batch size of `testAllServers`. -/
def MAX_CONCURRENT : Nat := 5

/-- The `for (let i = 0; i < servers.length; i += MAX_CONCURRENT)` loop's
slicing, as the list of successive batches. -/
def toBatches {α : Type} : List α → List (List α)
  | [] => []
  | s :: rest =>
      (s :: rest).take MAX_CONCURRENT :: toBatches ((s :: rest).drop MAX_CONCURRENT)
  termination_by l => l.length
  decreasing_by simp [MAX_CONCURRENT]; omega

/-- One batch: `Promise.all(batch.map(testServer))` then the `forEach`
writing each result into the map. -/
def runBatch (env : ServerConfig → ProbeEnv) (batch : List ServerConfig)
    (acc : List (String × Option Nat)) : List (String × Option Nat) :=
  (batch.map (testServer env)).foldl (fun m r => mapSet m r.serverId r.latency) acc

/-- `SpeedTestService.testAllServers(servers)`. -/
def testAllServers (env : ServerConfig → ProbeEnv) (servers : List ServerConfig) :
    List (String × Option Nat) :=
  (toBatches servers).foldl (fun acc batch => runBatch env batch acc) []

/-! ## `CoreUpdateService.downloadFile` — temp-file extension

`path.extname` on the parsed URL's pathname, following Node's algorithm:
trailing `/` separators are stripped, the basename is the part after the
last remaining `/`, and the extension is the basename's suffix starting at
its last dot — except that the result is empty when the basename has no
dot, when its last dot is its first character (a dotfile such as
`.bashrc`), or when the component is exactly `..`.  WHATWG URL pathnames
of http(s) URLs contain only `/` separators (backslashes are normalized
during parsing), on which Node's posix and win32 variants agree. -/

def extnameOf (p : String) : String :=
  let trimmed := (p.data.reverse.dropWhile (fun c => c == '/')).reverse
  let b := (trimmed.splitOn '/').getLastD []
  let revSuffix := b.reverse.takeWhile (fun c => c != '.')
  if revSuffix.length = b.length then ""
  else if b.length - revSuffix.length - 1 = 0 then ""
  else if b = ['.', '.'] then ""
  else ⟨'.' :: revSuffix.reverse⟩

/-- The extension `downloadFile` gives the temp file, from the platform and
the parsed pathname (`none` when `new URL(url)` throws). -/
def downloadTempExt (platform : Platform) (parsedPathname : Option String) : String :=
  let ext :=
    match parsedPathname with
    | some pathname =>
        let e := extnameOf pathname
        if e ≠ "" then e else ".zip"
    | none => ".zip"
  if platform = Platform.win32 ∧ ext ≠ ".zip" then ".zip" else ext

/-- `sing-box-core-update-<timestamp><ext>`, the temp file's name. -/
def downloadTempName (ts : Nat) (ext : String) : String :=
  "sing-box-core-update-" ++ toString ts ++ ext

/-! ## IPC handler `SERVER_SPEED_TEST`
(src/main/ipc/handlers/speed-test-handlers.ts)

For each configured server a direct TCP connection to `address:port` is
timed with a 5s timeout; all probes start at once (`Promise.all` over the
full list, no batching) and each writes its own entry: elapsed
milliseconds on success, `-1` on failure or timeout.  The oracle returns
`some elapsed` for a successful connect and `none` for failure/timeout. -/

structure ServerEntry where
  id : String
  address : String
  port : Nat
  deriving DecidableEq

/-- The per-server score: elapsed time, or `-1` for failure/timeout. -/
def tcpScore : Option Nat → Int
  | some l => (l : Int)
  | none => -1

/-- The `SERVER_SPEED_TEST` handler body: every server's probe writes
exactly its own key into the record (completion order only permutes
insertion order; the key-to-value content is modelled by input order). -/
def speedTestHandler (probe : ServerEntry → Option Nat) (servers : List ServerEntry) :
    List (String × Int) :=
  servers.foldl (fun acc s => mapSet acc s.id (tcpScore (probe s))) []

/-! # Theorems -/

/-! ## C3 — version comparator -/

theorem cmpComponents_self : ∀ p : List Nat, cmpComponents p p = 0 := by
  intro p
  induction p with
  | nil => rfl
  | cons n p ih => simp [cmpComponents, ih]

theorem cmpNil_antisymm :
    ∀ p2 : List Nat, cmpNil p2 = -cmpComponents p2 [] := by
  intro p2
  induction p2 with
  | nil => rfl
  | cons n2 p2 ih =>
      by_cases h : 0 < n2
      · simp [cmpComponents, cmpNil, h, Nat.not_lt_of_lt h]
      · have hz : n2 = 0 := Nat.eq_zero_of_not_pos h
        subst hz
        simpa [cmpComponents, cmpNil] using ih

theorem cmpComponents_antisymm :
    ∀ p1 p2 : List Nat, cmpComponents p1 p2 = -cmpComponents p2 p1 := by
  intro p1
  induction p1 with
  | nil =>
      intro p2
      simpa [cmpComponents] using cmpNil_antisymm p2
  | cons n1 p1 ih =>
      intro p2
      cases p2 with
      | nil =>
          by_cases h : 0 < n1
          · simp [cmpComponents, cmpNil, h, Nat.not_lt_of_lt h]
          · have hz : n1 = 0 := Nat.eq_zero_of_not_pos h
            subst hz
            simpa [cmpComponents, cmpNil] using ih []
      | cons n2 p2 =>
          rcases Nat.lt_trichotomy n1 n2 with h | h | h
          · simp [cmpComponents, h, Nat.not_lt_of_lt h]
          · subst h
            simpa [cmpComponents] using ih p2
          · simp [cmpComponents, h, Nat.not_lt_of_lt h]

/-- C3: the version comparator satisfies `compare(a,b) = -compare(b,a)` and
`compare(a,a) = 0` for all version strings, components being compared
pairwise as integers with missing trailing components read as zero; in
particular `compare("1.8","1.8.0") = 0` and `compare("1.9.0","1.10.0") < 0`. -/
theorem compareVersions_total_order :
    (∀ a b : String, compareVersions a b = -compareVersions b a) ∧
    (∀ a : String, compareVersions a a = 0) ∧
    compareVersions "1.8" "1.8.0" = 0 ∧
    compareVersions "1.9.0" "1.10.0" < 0 := by
  refine ⟨fun a b => cmpComponents_antisymm _ _,
          fun a => cmpComponents_self _, ?_, ?_⟩ <;> decide

/-! ## C4 — `checkUpdate` returns a structured result -/

/-- C4: `checkUpdate` is a total function of its oracle (it never throws:
every failure branch, including a failed feed fetch, produces a structured
result), and for an upstream feed containing only prerelease entries the
result is `hasUpdate = false` with a non-empty `error`. -/
theorem checkUpdate_structured (env : CheckEnv) :
    (∀ cv rs, env.getVersion = Except.ok cv → env.fetchReleases = Except.ok rs →
      (∀ r ∈ rs, r.prerelease = true) →
      (checkUpdate env).hasUpdate = false ∧
      ∃ e, (checkUpdate env).error = some e ∧ e ≠ "") ∧
    (∀ cv m, env.getVersion = Except.ok cv → env.fetchReleases = Except.error m →
      checkUpdate env = checkCatch m) := by
  constructor
  · intro cv rs hv hf hpre
    have hfilter : rs.filter (fun r => !r.prerelease) = [] := by
      simp only [List.filter_eq_nil_iff]
      intro r hr
      simp [hpre r hr]
    cases rs with
    | nil => simp [checkUpdate, hv, hf]
    | cons r rs' => simp [checkUpdate, hv, hf, hfilter]
  · intro cv m hv hf
    simp [checkUpdate, hv, hf]

/-- Witness for C4 at a concrete prerelease-only feed. -/
theorem checkUpdate_structured_witness :
    (checkUpdate prereleaseOnlyEnv).hasUpdate = false ∧
    ∃ e, (checkUpdate prereleaseOnlyEnv).error = some e ∧ e ≠ "" :=
  (checkUpdate_structured prereleaseOnlyEnv).1 "1.0.0"
    [⟨"v1.1.0", true, "notes", []⟩] rfl rfl (by decide)

/-! ## Filesystem point lemmas -/

theorem fsWrite_self (fs : FileSys) (p c : String) : fsWrite fs p c p = some c := by
  simp [fsWrite]

theorem fsWrite_ne (fs : FileSys) (p c q : String) (h : q ≠ p) :
    fsWrite fs p c q = fs q := by
  simp [fsWrite, h]

theorem copyFailFs_ne (fs : FileSys) (dest : String) (l : Option String) (q : String)
    (h : q ≠ dest) : copyFailFs fs dest l q = fs q := by
  cases l <;> simp [copyFailFs, fsWrite, h]

theorem backupPath_ne (env : UpdateEnv) : backupPath env ≠ env.singBoxPath := by
  intro h
  have hlen := congrArg String.length h
  have h4 : (".bak" : String).length = 4 := rfl
  rw [backupPath, String.length_append, h4] at hlen
  omega

/-! ## C2 — single-flight `updateCore` -/

/-- C2: a call while `isUpdating` is `true` fails immediately with the busy
error and leaves the whole state (filesystem included) untouched, and
whenever a call enters the body, `isUpdating` is `false` again on exit,
success or failure. -/
theorem updateCore_single_flight (env : UpdateEnv) (st : SysState) :
    (st.isUpdating = true → updateCore env st = (st, Except.error "更新正在进行中")) ∧
    (st.isUpdating = false → (updateCore env st).1.isUpdating = false) := by
  constructor
  · intro h
    simp [updateCore, h]
  · intro h
    simp only [updateCore]
    rw [if_neg (by simp [h])]
    repeat' split
    all_goals rfl

/-- Filesystem and environment used to witness the single-flight theorem. -/
def idleFs : FileSys := fun _ => none

def noopUpdateEnv : UpdateEnv :=
  ⟨Platform.linux, "/app/sing-box", "/tmp/dl.tar.gz",
   Except.error "network down", Except.error "no archive", false, false,
   Except.ok (), true, "", none, ⟨fun _ => CopyOutcome.ok, fun _ => none⟩, true, none⟩

/-- Witness for C2: a busy call is rejected unchanged; an idle call exits
with the flag cleared. -/
theorem updateCore_single_flight_witness :
    updateCore noopUpdateEnv ⟨idleFs, true⟩ = (⟨idleFs, true⟩, Except.error "更新正在进行中") ∧
    (updateCore noopUpdateEnv ⟨idleFs, false⟩).1.isUpdating = false :=
  ⟨(updateCore_single_flight noopUpdateEnv ⟨idleFs, true⟩).1 rfl,
   (updateCore_single_flight noopUpdateEnv ⟨idleFs, false⟩).2 rfl⟩

/-! ## C5 — the retrying locked-file copy -/

theorem copyRetryGo_attempts (platform : Platform) (cenv : CopyEnv) (src dest : String) :
    ∀ r i fs,
      ((copyRetryGo platform cenv src dest r i fs).trace.countP CopyEvent.isAttempt) ≤ r := by
  intro r
  induction r with
  | zero => intro i fs; simp [copyRetryGo]
  | succ n ih =>
      intro i fs
      cases ho : cenv.outcomes i with
      | ok => simp [copyRetryGo, ho, CopyEvent.isAttempt]
      | err c m =>
          by_cases hn : n = 0
          · subst hn
            simp [copyRetryGo, ho, CopyEvent.isAttempt]
          · have hrec := ih (i + 1) (copyFailFs fs dest (cenv.leftover i))
            by_cases hb : platform = Platform.win32 ∧ (c = "EBUSY" ∨ c = "EPERM")
            · rcases hb with ⟨hw, hc⟩
              subst hw
              rcases hc with hc | hc <;> subst hc <;>
                simp [copyRetryGo, ho, hn, CopyEvent.isAttempt,
                  List.countP_append, List.countP_cons] <;>
                omega
            · simp [copyRetryGo, ho, hn, hb, CopyEvent.isAttempt,
                List.countP_append, List.countP_cons]
              omega

theorem copyRetryGo_success (platform : Platform) (cenv : CopyEnv) (src dest : String) :
    ∀ r i fs, (∃ j, j < r ∧ (cenv.outcomes (i + j)).isOk = true) →
      (copyRetryGo platform cenv src dest r i fs).result = Except.ok () := by
  intro r
  induction r with
  | zero =>
      rintro i fs ⟨j, hj, _⟩
      omega
  | succ n ih =>
      rintro i fs ⟨j, hj, hok⟩
      cases ho : cenv.outcomes i with
      | ok => simp [copyRetryGo, ho]
      | err c m =>
          have hj0 : j ≠ 0 := by
            intro h
            subst h
            rw [Nat.add_zero, ho] at hok
            simp [CopyOutcome.isOk] at hok
          have hn : n ≠ 0 := by omega
          have harith : i + 1 + (j - 1) = i + j := by omega
          simp only [copyRetryGo, ho, hn, if_false, if_neg hn]
          exact ih (i + 1) (copyFailFs fs dest (cenv.leftover i))
            ⟨j - 1, by omega, by rw [harith]; exact hok⟩

theorem copyRetry3_all_fail (platform : Platform) (cenv : CopyEnv) (src dest : String)
    (fs : FileSys) {c0 m0 c1 m1 c2 m2 : String}
    (h0 : cenv.outcomes 0 = CopyOutcome.err c0 m0)
    (h1 : cenv.outcomes 1 = CopyOutcome.err c1 m1)
    (h2 : cenv.outcomes 2 = CopyOutcome.err c2 m2) :
    (copyFileWithRetry platform cenv src dest 3 fs).result = Except.error (c2, m2) := by
  simp [copyFileWithRetry, copyRetryGo, h0, h1, h2]

theorem copyRetry3_taskkill_iff (platform : Platform) (cenv : CopyEnv) (src dest : String)
    (fs : FileSys) :
    CopyEvent.taskkill ∈ (copyFileWithRetry platform cenv src dest 3 fs).trace ↔
      platform = Platform.win32 ∧
        ((cenv.outcomes 0).isBusyErr = true ∨
         ((cenv.outcomes 0).isOk = false ∧ (cenv.outcomes 1).isBusyErr = true)) := by
  cases h0 : cenv.outcomes 0 with
  | ok => simp [copyFileWithRetry, copyRetryGo, h0, CopyOutcome.isBusyErr, CopyOutcome.isOk]
  | err c0 m0 =>
      cases h1 : cenv.outcomes 1 with
      | ok =>
          by_cases hb0 : platform = Platform.win32 ∧ (c0 = "EBUSY" ∨ c0 = "EPERM")
          · simp [copyFileWithRetry, copyRetryGo, h0, h1, hb0,
              CopyOutcome.isBusyErr, CopyOutcome.isOk]
            try tauto
          · simp [copyFileWithRetry, copyRetryGo, h0, h1, hb0,
              CopyOutcome.isBusyErr, CopyOutcome.isOk]
            try tauto
      | err c1 m1 =>
          by_cases hb0 : platform = Platform.win32 ∧ (c0 = "EBUSY" ∨ c0 = "EPERM") <;>
          by_cases hb1 : platform = Platform.win32 ∧ (c1 = "EBUSY" ∨ c1 = "EPERM") <;>
          cases h2 : cenv.outcomes 2 <;>
            simp [copyFileWithRetry, copyRetryGo, h0, h1, h2, hb0, hb1,
              CopyOutcome.isBusyErr, CopyOutcome.isOk] <;>
            try tauto

/-- C5: with the default budget of 3, the copy loop makes at most 3
attempts; a success on any attempt returns without error; if all three
attempts fail, the third attempt's error is propagated; and the forced
`taskkill` of the core executable happens exactly after a non-final failed
attempt on Windows whose code is `EBUSY` or `EPERM`. -/
theorem copyFileWithRetry_spec (platform : Platform) (cenv : CopyEnv)
    (src dest : String) (fs : FileSys) :
    ((copyFileWithRetry platform cenv src dest 3 fs).trace.countP CopyEvent.isAttempt ≤ 3) ∧
    ((∃ i, i < 3 ∧ (cenv.outcomes i).isOk = true) →
      (copyFileWithRetry platform cenv src dest 3 fs).result = Except.ok ()) ∧
    (∀ c0 m0 c1 m1 c2 m2, cenv.outcomes 0 = CopyOutcome.err c0 m0 →
      cenv.outcomes 1 = CopyOutcome.err c1 m1 → cenv.outcomes 2 = CopyOutcome.err c2 m2 →
      (copyFileWithRetry platform cenv src dest 3 fs).result = Except.error (c2, m2)) ∧
    (CopyEvent.taskkill ∈ (copyFileWithRetry platform cenv src dest 3 fs).trace ↔
      platform = Platform.win32 ∧
        ((cenv.outcomes 0).isBusyErr = true ∨
         ((cenv.outcomes 0).isOk = false ∧ (cenv.outcomes 1).isBusyErr = true))) := by
  refine ⟨copyRetryGo_attempts platform cenv src dest 3 0 fs, ?_, ?_, ?_⟩
  · rintro ⟨i, hi, hok⟩
    exact copyRetryGo_success platform cenv src dest 3 0 fs ⟨i, hi, by simpa using hok⟩
  · intro c0 m0 c1 m1 c2 m2 hc0 hc1 hc2
    exact copyRetry3_all_fail platform cenv src dest fs hc0 hc1 hc2
  · exact copyRetry3_taskkill_iff platform cenv src dest fs

theorem copyRetryGo_fs_ne (platform : Platform) (cenv : CopyEnv) (src dest : String) :
    ∀ r i fs q, q ≠ dest → (copyRetryGo platform cenv src dest r i fs).fs q = fs q := by
  intro r
  induction r with
  | zero => intro i fs q h; rfl
  | succ n ih =>
      intro i fs q h
      cases ho : cenv.outcomes i with
      | ok => simp [copyRetryGo, ho, fsWrite_ne _ _ _ _ h]
      | err c m =>
          by_cases hn : n = 0
          · subst hn
            simp [copyRetryGo, ho, copyFailFs_ne _ _ _ _ h]
          · simp [copyRetryGo, ho, hn,
              ih (i + 1) (copyFailFs fs dest (cenv.leftover i)) q h,
              copyFailFs_ne _ _ _ _ h]

theorem copyFileWithRetry_fs_ne (platform : Platform) (cenv : CopyEnv) (src dest : String)
    (r : Nat) (fs : FileSys) (q : String) (h : q ≠ dest) :
    (copyFileWithRetry platform cenv src dest r fs).fs q = fs q :=
  copyRetryGo_fs_ne platform cenv src dest r 0 fs q h

/-- Copy oracle used to witness C5: first attempt fails `EBUSY` on Windows,
second succeeds. -/
def busyThenOkEnv : CopyEnv :=
  ⟨fun i => if i = 0 then CopyOutcome.err "EBUSY" "resource busy" else CopyOutcome.ok,
   fun _ => none⟩

/-- Witness for C5: a success on the second attempt returns without error,
and the Windows busy failure triggered the forced termination. -/
theorem copyFileWithRetry_spec_witness :
    (copyFileWithRetry Platform.win32 busyThenOkEnv "new" "/app/sing-box.exe" 3
      idleFs).result = Except.ok () ∧
    CopyEvent.taskkill ∈ (copyFileWithRetry Platform.win32 busyThenOkEnv "new"
      "/app/sing-box.exe" 3 idleFs).trace :=
  ⟨(copyFileWithRetry_spec Platform.win32 busyThenOkEnv "new" "/app/sing-box.exe"
      idleFs).2.1 ⟨1, by decide, by decide⟩,
   (copyFileWithRetry_spec Platform.win32 busyThenOkEnv "new" "/app/sing-box.exe"
      idleFs).2.2.2.mpr ⟨rfl, Or.inl (by decide)⟩⟩

/-! ## C1 — rollback restores the pre-update binary -/

/-- C1: when the run reaches the install step with a previously installed
binary in place (so a backup is made), and every install-copy attempt
fails, then — the restore copy itself succeeding — the backup is written
back over the install path and the third attempt's error is re-raised, so
the install path again holds the pre-update binary byte for byte. -/
theorem updateCore_rollback (env : UpdateEnv) (st : SysState)
    (orig corePath newContent : String)
    (h₁ : st.isUpdating = false)
    (horig : st.fs env.singBoxPath = some orig)
    (hdl : ∃ d, env.download = Except.ok d)
    (hex : env.extract = Except.ok (corePath, newContent))
    (hcp1 : corePath ≠ env.singBoxPath)
    (htp1 : env.tempPath ≠ env.singBoxPath)
    (hstop : env.proxyRunning = true → env.stopResult = Except.ok ())
    (hbk : env.backupOk = true)
    (hfail : ∀ i, i < 3 → (env.copy.outcomes i).isOk = false)
    (hrest : env.restoreOk = true) :
    (updateCore env st).1.fs env.singBoxPath = some orig ∧
    ∃ c m, env.copy.outcomes 2 = CopyOutcome.err c m ∧
      (updateCore env st).2 = Except.error m := by
  obtain ⟨d, hd⟩ := hdl
  have herr : ∀ i, i < 3 → ∃ c m, env.copy.outcomes i = CopyOutcome.err c m := by
    intro i hi
    cases hx : env.copy.outcomes i with
    | ok =>
        have hf := hfail i hi
        rw [hx] at hf
        simp [CopyOutcome.isOk] at hf
    | err c m => exact ⟨c, m, rfl⟩
  obtain ⟨c0, m0, h0⟩ := herr 0 (by omega)
  obtain ⟨c1, m1, h1⟩ := herr 1 (by omega)
  obtain ⟨c2, m2, h2⟩ := herr 2 (by omega)
  have hfs2 : (fsWrite (fsWrite st.fs env.tempPath d) corePath newContent)
      env.singBoxPath = some orig := by
    rw [fsWrite_ne _ _ _ _ (Ne.symm hcp1), fsWrite_ne _ _ _ _ (Ne.symm htp1), horig]
  have hstop' : (if env.proxyRunning then env.stopResult else Except.ok ())
      = Except.ok () := by
    cases hpr : env.proxyRunning
    · rfl
    · simp [hstop hpr]
  have hbkstep : backupStep env (fsWrite (fsWrite st.fs env.tempPath d) corePath newContent)
      = (fsWrite (fsWrite (fsWrite st.fs env.tempPath d) corePath newContent)
          (backupPath env) orig, Except.ok ()) := by
    simp [backupStep, hfs2, hbk]
  have hcpres : (copyFileWithRetry env.platform env.copy newContent env.singBoxPath 3
      (fsWrite (fsWrite (fsWrite st.fs env.tempPath d) corePath newContent)
        (backupPath env) orig)).result = Except.error (c2, m2) :=
    copyRetry3_all_fail _ _ _ _ _ h0 h1 h2
  have hcpbk : (copyFileWithRetry env.platform env.copy newContent env.singBoxPath 3
      (fsWrite (fsWrite (fsWrite st.fs env.tempPath d) corePath newContent)
        (backupPath env) orig)).fs (backupPath env) = some orig := by
    rw [copyFileWithRetry_fs_ne _ _ _ _ _ _ _ (backupPath_ne env)]
    exact fsWrite_self _ _ _
  have hrb : restoreBackup env (copyFileWithRetry env.platform env.copy newContent
      env.singBoxPath 3 (fsWrite (fsWrite (fsWrite st.fs env.tempPath d) corePath newContent)
        (backupPath env) orig)).fs
      = fsWrite (copyFileWithRetry env.platform env.copy newContent env.singBoxPath 3
          (fsWrite (fsWrite (fsWrite st.fs env.tempPath d) corePath newContent)
            (backupPath env) orig)).fs env.singBoxPath orig := by
    simp [restoreBackup, hcpbk, hrest]
  have hrun : updateCore env st = updateFail env
      (copyFileWithRetry env.platform env.copy newContent env.singBoxPath 3
        (fsWrite (fsWrite (fsWrite st.fs env.tempPath d) corePath newContent)
          (backupPath env) orig)).fs m2 := by
    simp only [updateCore, h₁, Bool.false_eq_true, if_false, hd, hex, hstop', hbkstep, hcpres]
  refine ⟨?_, c2, m2, h2, ?_⟩
  · rw [hrun]
    simp only [updateFail]
    rw [hrb]
    exact fsWrite_self _ _ _
  · rw [hrun]
    rfl

/-- Environment used to witness the rollback theorem: download and
extraction succeed, every install-copy attempt fails with `EACCES` leaving
leftover data, and the restore copy succeeds. -/
def rollbackEnv : UpdateEnv :=
  ⟨Platform.linux, "/app/sing-box", "/tmp/dl.tar.gz",
   Except.ok "archive-bytes",
   Except.ok ("/tmp/extract/sing-box", "new-binary"),
   true, false, Except.ok (), true, "", none,
   ⟨fun _ => CopyOutcome.err "EACCES" "permission denied", fun _ => some "garbled"⟩,
   true, none⟩

def rollbackFs : FileSys :=
  fun p => if p = "/app/sing-box" then some "old-binary" else none

/-- Witness for C1: after the failed update the install path again holds
the old binary and the copy error is re-raised. -/
theorem updateCore_rollback_witness :
    (updateCore rollbackEnv ⟨rollbackFs, false⟩).1.fs "/app/sing-box" = some "old-binary" ∧
    (updateCore rollbackEnv ⟨rollbackFs, false⟩).2 = Except.error "permission denied" := by
  have h := updateCore_rollback rollbackEnv ⟨rollbackFs, false⟩
    "old-binary" "/tmp/extract/sing-box" "new-binary" rfl (by decide)
    ⟨"archive-bytes", rfl⟩ rfl (by decide) (by decide)
    (fun hpr => absurd hpr (by decide)) rfl (fun i _ => rfl) rfl
  obtain ⟨hfs, c, m, hcm, hres⟩ := h
  have hc : CopyOutcome.err "EACCES" "permission denied" = CopyOutcome.err c m := hcm
  cases hc
  exact ⟨hfs, hres⟩

/-! ## Association-list map lemmas (`Map.set` / record writes) -/

theorem mapSet_any_iff {β : Type} (m : List (String × β)) (k : String) :
    (m.any fun p => decide (p.1 = k)) = true ↔ k ∈ m.map Prod.fst := by
  simp [List.any_eq_true, List.mem_map]

theorem mapSet_keys {β : Type} (m : List (String × β)) (k : String) (v : β) :
    (mapSet m k v).map Prod.fst =
      if k ∈ m.map Prod.fst then m.map Prod.fst else m.map Prod.fst ++ [k] := by
  by_cases h : k ∈ m.map Prod.fst
  · rw [if_pos h, mapSet, if_pos ((mapSet_any_iff m k).mpr h)]
    clear h
    induction m with
    | nil => rfl
    | cons p t ih =>
        by_cases hp : p.1 = k <;> simp [hp, ih]
  · rw [if_neg h, mapSet, if_neg (fun hc => h ((mapSet_any_iff m k).mp hc))]
    simp

theorem mapSet_keys_mem_iff {β : Type} (m : List (String × β)) (k : String) (v : β)
    (x : String) :
    x ∈ (mapSet m k v).map Prod.fst ↔ x ∈ m.map Prod.fst ∨ x = k := by
  rw [mapSet_keys]
  by_cases h : k ∈ m.map Prod.fst
  · rw [if_pos h]
    constructor
    · exact Or.inl
    · rintro (hx | rfl)
      · exact hx
      · exact h
  · rw [if_neg h]
    simp

theorem mapSet_keys_nodup {β : Type} (m : List (String × β)) (k : String) (v : β)
    (h : (m.map Prod.fst).Nodup) : ((mapSet m k v).map Prod.fst).Nodup := by
  rw [mapSet_keys]
  by_cases hk : k ∈ m.map Prod.fst
  · rw [if_pos hk]; exact h
  · rw [if_neg hk]
    simp [List.nodup_append, h, hk]

theorem lookupKey_append_missing {β : Type} (k : String) (v : β) :
    ∀ m : List (String × β), k ∉ m.map Prod.fst → lookupKey (m ++ [(k, v)]) k = some v := by
  intro m
  induction m with
  | nil => intro _; simp [lookupKey]
  | cons p t ih =>
      intro h
      simp only [List.map_cons, List.mem_cons, not_or] at h
      rw [List.cons_append]
      simp only [lookupKey]
      rw [if_neg (fun hc => h.1 hc.symm)]
      exact ih h.2

theorem lookupKey_overwrite {β : Type} (k : String) (v : β) :
    ∀ m : List (String × β), k ∈ m.map Prod.fst →
      lookupKey (m.map fun p => if p.1 = k then (k, v) else p) k = some v := by
  intro m
  induction m with
  | nil => intro h; simp at h
  | cons p t ih =>
      intro h
      by_cases hp : p.1 = k
      · rw [List.map_cons, if_pos hp]
        simp [lookupKey]
      · rw [List.map_cons, if_neg hp]
        simp only [lookupKey]
        rw [if_neg hp]
        apply ih
        simp only [List.map_cons, List.mem_cons] at h
        rcases h with h | h
        · exact absurd h.symm hp
        · exact h

theorem lookupKey_mapSet_self {β : Type} (m : List (String × β)) (k : String) (v : β) :
    lookupKey (mapSet m k v) k = some v := by
  rw [mapSet]
  by_cases h : (m.any fun p => decide (p.1 = k)) = true
  · rw [if_pos h]
    exact lookupKey_overwrite k v m ((mapSet_any_iff m k).mp h)
  · rw [if_neg h]
    exact lookupKey_append_missing k v m (fun hk => h ((mapSet_any_iff m k).mpr hk))

theorem lookupKey_mapSet_ne {β : Type} (k k' : String) (v : β) (h : k ≠ k') :
    ∀ m : List (String × β), lookupKey (mapSet m k' v) k = lookupKey m k := by
  intro m
  rw [mapSet]
  by_cases hc : (m.any fun p => decide (p.1 = k')) = true
  · rw [if_pos hc]
    clear hc
    induction m with
    | nil => rfl
    | cons p t ih =>
        rw [List.map_cons]
        by_cases hp : p.1 = k'
        · rw [if_pos hp]
          have h1 : ¬(k' = k) := fun hx => h hx.symm
          have h2 : ¬(p.1 = k) := by rw [hp]; exact h1
          simp only [lookupKey]
          rw [if_neg h1, if_neg h2]
          exact ih
        · rw [if_neg hp]
          simp only [lookupKey]
          by_cases hk : p.1 = k
          · rw [if_pos hk, if_pos hk]
          · rw [if_neg hk, if_neg hk]
            exact ih
  · rw [if_neg hc]
    clear hc
    induction m with
    | nil =>
        simp only [List.nil_append, lookupKey]
        rw [if_neg (fun hx : k' = k => h hx.symm)]
    | cons p t ih =>
        rw [List.cons_append]
        simp only [lookupKey]
        by_cases hk : p.1 = k
        · rw [if_pos hk, if_pos hk]
        · rw [if_neg hk, if_neg hk]
          exact ih

theorem foldl_mapSet_keys_mem {γ β : Type} (key : γ → String) (val : γ → β) :
    ∀ (xs : List γ) (acc : List (String × β)) (x : String),
      x ∈ ((xs.foldl (fun m r => mapSet m (key r) (val r)) acc).map Prod.fst) ↔
        x ∈ acc.map Prod.fst ∨ x ∈ xs.map key := by
  intro xs
  induction xs with
  | nil => simp
  | cons r t ih =>
      intro acc x
      simp only [List.foldl_cons, List.map_cons, List.mem_cons]
      rw [ih, mapSet_keys_mem_iff]
      tauto

theorem foldl_mapSet_keys_nodup {γ β : Type} (key : γ → String) (val : γ → β) :
    ∀ (xs : List γ) (acc : List (String × β)), (acc.map Prod.fst).Nodup →
      ((xs.foldl (fun m r => mapSet m (key r) (val r)) acc).map Prod.fst).Nodup := by
  intro xs
  induction xs with
  | nil => intro acc h; exact h
  | cons r t ih =>
      intro acc h
      exact ih _ (mapSet_keys_nodup _ _ _ h)

theorem foldl_mapSet_lookup_not_mem {γ β : Type} (key : γ → String) (val : γ → β) :
    ∀ (xs : List γ) (acc : List (String × β)) (k : String), k ∉ xs.map key →
      lookupKey (xs.foldl (fun m r => mapSet m (key r) (val r)) acc) k = lookupKey acc k := by
  intro xs
  induction xs with
  | nil => intro acc k _; rfl
  | cons r t ih =>
      intro acc k h
      simp only [List.map_cons, List.mem_cons] at h
      push_neg at h
      rw [List.foldl_cons, ih _ _ h.2, lookupKey_mapSet_ne _ _ _ h.1]

theorem foldl_mapSet_lookup {γ β : Type} (key : γ → String) (val : γ → β) :
    ∀ (xs : List γ) (acc : List (String × β)), (xs.map key).Nodup →
      ∀ r ∈ xs, lookupKey (xs.foldl (fun m r => mapSet m (key r) (val r)) acc) (key r)
        = some (val r) := by
  intro xs
  induction xs with
  | nil => intro acc _ r hr; simp at hr
  | cons r t ih =>
      intro acc hnd s hs
      simp only [List.map_cons, List.nodup_cons] at hnd
      rw [List.mem_cons] at hs
      rcases hs with rfl | hs
      · rw [List.foldl_cons, foldl_mapSet_lookup_not_mem key val t _ _ hnd.1]
        exact lookupKey_mapSet_self _ _ _
      · exact ih _ hnd.2 s hs

/-! ## Batch partition lemmas (`toBatches`) -/

theorem toBatches_flatten_aux {α : Type} :
    ∀ (n : Nat) (l : List α), l.length ≤ n → (toBatches l).flatten = l := by
  intro n
  induction n with
  | zero =>
      intro l h
      have hl : l = [] := List.length_eq_zero.mp (Nat.le_zero.mp h)
      subst hl
      simp [toBatches]
  | succ n ih =>
      intro l h
      cases l with
      | nil => simp [toBatches]
      | cons s rest =>
          have hlen : ((s :: rest).drop MAX_CONCURRENT).length ≤ n := by
            simp only [List.length_drop, List.length_cons, MAX_CONCURRENT]
            simp only [List.length_cons] at h
            omega
          simp only [toBatches, List.flatten_cons]
          rw [ih _ hlen]
          exact List.take_append_drop MAX_CONCURRENT (s :: rest)

theorem toBatches_flatten {α : Type} (l : List α) : (toBatches l).flatten = l :=
  toBatches_flatten_aux l.length l le_rfl

theorem toBatches_sizes_aux {α : Type} :
    ∀ (n : Nat) (l : List α), l.length ≤ n →
      ∀ b ∈ toBatches l, b ≠ [] ∧ b.length ≤ MAX_CONCURRENT := by
  intro n
  induction n with
  | zero =>
      intro l h b hb
      have hl : l = [] := List.length_eq_zero.mp (Nat.le_zero.mp h)
      subst hl
      simp [toBatches] at hb
  | succ n ih =>
      intro l h b hb
      cases l with
      | nil => simp [toBatches] at hb
      | cons s rest =>
          simp only [toBatches, List.mem_cons] at hb
          rcases hb with rfl | hb
          · constructor
            · simp [MAX_CONCURRENT]
            · exact le_trans (List.length_take_le MAX_CONCURRENT (s :: rest)) le_rfl
          · refine ih _ ?_ b hb
            simp only [List.length_drop, List.length_cons, MAX_CONCURRENT]
            simp only [List.length_cons] at h
            omega

theorem toBatches_eq_nil_iff {α : Type} (l : List α) : toBatches l = [] ↔ l = [] := by
  cases l with
  | nil => simp [toBatches]
  | cons s rest => simp [toBatches]

theorem toBatches_dropLast_aux {α : Type} :
    ∀ (n : Nat) (l : List α), l.length ≤ n →
      ∀ b ∈ (toBatches l).dropLast, b.length = MAX_CONCURRENT := by
  intro n
  induction n with
  | zero =>
      intro l h b hb
      have hl : l = [] := List.length_eq_zero.mp (Nat.le_zero.mp h)
      subst hl
      simp [toBatches] at hb
  | succ n ih =>
      intro l h b hb
      cases l with
      | nil => simp [toBatches] at hb
      | cons s rest =>
          by_cases hd : (s :: rest).drop MAX_CONCURRENT = []
          · simp only [toBatches, hd] at hb
            simp [toBatches] at hb
          · have hne : toBatches ((s :: rest).drop MAX_CONCURRENT) ≠ [] := by
              rw [Ne, toBatches_eq_nil_iff]
              exact hd
            rw [toBatches, List.dropLast_cons_of_ne_nil hne, List.mem_cons] at hb
            have hlong : MAX_CONCURRENT < (s :: rest).length := by
              by_contra hc
              push_neg at hc
              exact hd (List.drop_eq_nil_of_le hc)
            rcases hb with rfl | hb
            · rw [List.length_take]
              omega
            · refine ih _ ?_ b hb
              simp only [List.length_drop, List.length_cons, MAX_CONCURRENT]
              simp only [List.length_cons] at h
              omega

/-! ## C6 — `testAllServers` coverage and batching -/

theorem testServer_serverId (env : ServerConfig → ProbeEnv) (s : ServerConfig) :
    (testServer env s).serverId = s.id := by
  rw [testServer]
  rcases (env s).startResult with m | u
  · rfl
  · rcases (env s).portResult with m | u
    · rfl
    · rcases (env s).httpResult with m | u <;> rfl

theorem testAllServers_eq_foldl (env : ServerConfig → ProbeEnv) (servers : List ServerConfig) :
    testAllServers env servers =
      (servers.map (testServer env)).foldl (fun m r => mapSet m r.serverId r.latency) [] := by
  rw [testAllServers]
  have hgen : ∀ (bs : List (List ServerConfig)) (acc : List (String × Option Nat)),
      bs.foldl (fun acc batch => runBatch env batch acc) acc =
        ((bs.flatten).map (testServer env)).foldl
          (fun m r => mapSet m r.serverId r.latency) acc := by
    intro bs
    induction bs with
    | nil => intro acc; rfl
    | cons b t ih =>
        intro acc
        simp only [List.foldl_cons, List.flatten_cons, List.map_append, List.foldl_append]
        rw [ih]
        rfl
  rw [hgen, toBatches_flatten]

/-- C6: the result of `testAllServers` is a genuine mapping — its keys have
no duplicates and are exactly the input servers' ids (so for distinct ids,
with values: each server's entry holds its probe's latency) — and the
batch decomposition partitions the input into batches of at most
`MAX_CONCURRENT = 5` servers, all full except possibly the last, each
batch's servers probed together (one `Promise.all`). -/
theorem testAllServers_spec (env : ServerConfig → ProbeEnv) (servers : List ServerConfig) :
    (((testAllServers env servers).map Prod.fst).Nodup) ∧
    (∀ x, x ∈ (testAllServers env servers).map Prod.fst ↔
      x ∈ servers.map ServerConfig.id) ∧
    ((servers.map ServerConfig.id).Nodup → ∀ s ∈ servers,
      lookupKey (testAllServers env servers) s.id = some (testServer env s).latency) ∧
    ((toBatches servers).flatten = servers) ∧
    (∀ b ∈ toBatches servers, b ≠ [] ∧ b.length ≤ MAX_CONCURRENT) ∧
    (∀ b ∈ (toBatches servers).dropLast, b.length = MAX_CONCURRENT) := by
  have hids : (servers.map (testServer env)).map SpeedTestResult.serverId
      = servers.map ServerConfig.id := by
    rw [List.map_map]
    exact List.map_congr_left fun s _ => testServer_serverId env s
  refine ⟨?_, ?_, ?_, toBatches_flatten servers,
    toBatches_sizes_aux servers.length servers le_rfl,
    toBatches_dropLast_aux servers.length servers le_rfl⟩
  · rw [testAllServers_eq_foldl]
    exact foldl_mapSet_keys_nodup _ _ _ [] (by simp)
  · intro x
    rw [testAllServers_eq_foldl,
      foldl_mapSet_keys_mem SpeedTestResult.serverId SpeedTestResult.latency
        (servers.map (testServer env)) [] x, hids]
    simp
  · intro hnd s hs
    rw [testAllServers_eq_foldl]
    have hlook := foldl_mapSet_lookup SpeedTestResult.serverId SpeedTestResult.latency
      (servers.map (testServer env)) [] (by rw [hids]; exact hnd)
      (testServer env s) (List.mem_map_of_mem _ hs)
    rwa [testServer_serverId env s] at hlook

/-- Probe oracle and servers used to witness C6. -/
def okProbeEnv : ServerConfig → ProbeEnv :=
  fun _ => ⟨Except.ok (), Except.ok (), Except.ok (), 42⟩

def demoServer (i : String) : ServerConfig :=
  ⟨i, "srv" ++ i, "trojan", "example.com", 443, none, none, some "pw", none,
   none, none, none, none, none, none⟩

/-- Witness for C6 on two concrete servers with distinct ids. -/
theorem testAllServers_spec_witness :
    (((testAllServers okProbeEnv [demoServer "a", demoServer "b"]).map Prod.fst).Nodup) ∧
    lookupKey (testAllServers okProbeEnv [demoServer "a", demoServer "b"])
      (demoServer "a").id = some (testServer okProbeEnv (demoServer "a")).latency :=
  ⟨(testAllServers_spec okProbeEnv [demoServer "a", demoServer "b"]).1,
   (testAllServers_spec okProbeEnv [demoServer "a", demoServer "b"]).2.2.1
     (by decide) (demoServer "a") (by simp)⟩

/-! ## C7 — per-server failure capture -/

/-- C7: `testServer` is a total function into `SpeedTestResult` (nothing is
thrown to `testAllServers` or its caller), its result always carries the
probed server's id, and — provided the stage error messages are non-empty,
as the messages the source constructs are — any stage failure yields
`latency = none` with a non-empty error, while a fully successful probe
yields the elapsed time with no error. -/
theorem testServer_failure_captured (env : ServerConfig → ProbeEnv) (s : ServerConfig)
    (hne : (∀ m, (env s).startResult = Except.error m → m ≠ "") ∧
           (∀ m, (env s).portResult = Except.error m → m ≠ "") ∧
           (∀ m, (env s).httpResult = Except.error m → m ≠ "")) :
    (testServer env s).serverId = s.id ∧
    ((env s).failed = true → (testServer env s).latency = none ∧
      ∃ m, (testServer env s).error = some m ∧ m ≠ "") ∧
    ((env s).failed = false → (testServer env s).latency = some (env s).elapsedMs ∧
      (testServer env s).error = none) := by
  obtain ⟨hs, hp, hh⟩ := hne
  refine ⟨testServer_serverId env s, ?_, ?_⟩ <;>
    intro hf <;>
    rcases h1 : (env s).startResult with m | u <;>
    rcases h2 : (env s).portResult with m' | u' <;>
    rcases h3 : (env s).httpResult with m'' | u'' <;>
    rw [ProbeEnv.failed, h1, h2, h3] at hf <;>
    simp [exOk] at hf <;>
    simp [testServer, h1, h2, h3]
  · exact hs m h1
  · exact hs m h1
  · exact hs m h1
  · exact hs m h1
  · exact hp m' h2
  · exact hp m' h2
  · exact hh m'' h3

/-- Witness for C7 at a failing spawn. -/
def failProbeEnv : ServerConfig → ProbeEnv :=
  fun _ => ⟨Except.error "sing-box 启动超时", Except.ok (), Except.ok (), 0⟩

theorem testServer_failure_captured_witness :
    (testServer failProbeEnv (demoServer "a")).serverId = "a" ∧
    (testServer failProbeEnv (demoServer "a")).latency = none ∧
    ∃ m, (testServer failProbeEnv (demoServer "a")).error = some m ∧ m ≠ "" := by
  have hne : (∀ m, (failProbeEnv (demoServer "a")).startResult = Except.error m → m ≠ "") ∧
      (∀ m, (failProbeEnv (demoServer "a")).portResult = Except.error m → m ≠ "") ∧
      (∀ m, (failProbeEnv (demoServer "a")).httpResult = Except.error m → m ≠ "") := by
    refine ⟨?_, ?_, ?_⟩ <;> intro m hm
    · cases hm
      decide
    · cases hm
    · cases hm
  have h := testServer_failure_captured failProbeEnv (demoServer "a") hne
  obtain ⟨hid, hfail, _⟩ := h
  obtain ⟨hlat, hm⟩ := hfail (by decide)
  exact ⟨hid, hlat, hm⟩

/-! ## C8 — websocket transport wrapping -/

/-- A shadowsocks profile with a websocket transport configured. -/
def ssWsServer : ServerConfig :=
  ⟨"s1", "ss-ws", "shadowsocks", "example.com", 8443, none, none, none, some "ws",
   some ⟨some "/ws", some "cdn.example.com"⟩, none,
   some ⟨some "aes-256-gcm", some "pw"⟩, none, none, none⟩

/-- C8 counterexample: a shadowsocks profile with websocket transport
configured (`network = "ws"`, `wsSettings` present) synthesizes an outbound
with NO transport layer at all — the shadowsocks (and hysteria2) branches
of `generateTempConfig` ignore the transport settings, contradicting the
claim that every supported protocol wraps its transport in a
websocket-style layer when configured. -/
theorem generateTempConfig_ss_ws_counterexample :
    ssWsServer.network = some "ws" ∧
    ssWsServer.wsSettings = some ⟨some "/ws", some "cdn.example.com"⟩ ∧
    (generateTempConfig ssWsServer 60000).outbounds.map Outbound.transport = [none] := by
  refine ⟨rfl, rfl, ?_⟩
  decide

/-- C8 (amended): for vless and trojan profiles with `network = "ws"` and
`wsSettings` present, the synthesized outbound's transport is the
websocket layer carrying the configured path (default `/`) and, when
present and non-empty, the `Host` header; hysteria2 and shadowsocks
profiles never receive a transport layer. -/
theorem generateTempConfig_transport_spec (server : ServerConfig) (port : Nat) :
    (∀ w, (protocolOf server = "vless" ∨ protocolOf server = "trojan") →
      server.network = some "ws" → server.wsSettings = some w →
      (generateTempConfig server port).outbounds.map Outbound.transport =
        [some ⟨"ws", some ((truthyStr w.path).getD "/"), truthyStr w.hostHeader⟩]) ∧
    ((protocolOf server = "hysteria2" ∨ protocolOf server = "shadowsocks") →
      (generateTempConfig server port).outbounds.map Outbound.transport = [none]) := by
  constructor
  · intro w hp hnw hws
    rcases hp with hp | hp <;>
      simp [generateTempConfig, hp, wsTransportOf, hnw, hws, truthyStr,
        apply_ite Outbound.transport]
  · intro hp
    rcases hp with hp | hp <;>
      simp [generateTempConfig, hp, apply_ite Outbound.transport]

/-- A trojan profile with websocket transport, witnessing the amended C8. -/
def trojanWsServer : ServerConfig :=
  ⟨"t1", "tj", "trojan", "h.example", 443, none, none, some "pw", some "ws",
   some ⟨some "/w", none⟩, none, none, some "tls", none, none⟩

/-- Witness for C8 (amended) at a concrete trojan-over-ws profile. -/
theorem generateTempConfig_transport_spec_witness :
    (generateTempConfig trojanWsServer 61000).outbounds.map Outbound.transport =
      [some ⟨"ws", some "/w", none⟩] := by
  have h := (generateTempConfig_transport_spec trojanWsServer 61000).1 ⟨some "/w", none⟩
    (Or.inr (by decide)) rfl rfl
  simpa [truthyStr] using h

/-! ## C9 — downloader temp-file extension -/

/-- A download URL pathname naming an extensionless asset. -/
def noExtPathname : String := "/SagerNet/sing-box/releases/download/latest/sing-box"

/-- C9 counterexample: for a download URL whose asset has no extension, the
temp file gets `.zip`, so the temp file's extension does NOT equal the
asset's (empty) extension — the claim's universal extension preservation
fails (the Windows override forcing `.zip` over any non-`.zip` extension
breaks it as well). -/
theorem downloadTempExt_counterexample :
    extnameOf noExtPathname = "" ∧
    downloadTempExt Platform.linux (some noExtPathname) = ".zip" ∧
    downloadTempExt Platform.linux (some noExtPathname) ≠ extnameOf noExtPathname := by
  refine ⟨?_, ?_, ?_⟩ <;> decide

/-- C9 (amended): the temp file's extension equals the URL pathname's
extension whenever that extension is non-empty and — on Windows — is
`.zip`; in every other case (no extension, unparsable URL, or Windows with
a non-`.zip` extension) the temp file gets `.zip`. -/
theorem downloadTempExt_spec (platform : Platform) (pathname : String) :
    (extnameOf pathname ≠ "" → (platform = Platform.win32 → extnameOf pathname = ".zip") →
      downloadTempExt platform (some pathname) = extnameOf pathname) ∧
    ((extnameOf pathname = "" ∨ (platform = Platform.win32 ∧ extnameOf pathname ≠ ".zip")) →
      downloadTempExt platform (some pathname) = ".zip") ∧
    downloadTempExt platform none = ".zip" := by
  refine ⟨?_, ?_, ?_⟩
  · intro he hw
    by_cases hp : platform = Platform.win32
    · have hz := hw hp
      simp [downloadTempExt, he, hz, hp]
    · simp [downloadTempExt, he, hp]
  · intro h
    rcases h with he | ⟨hw, hne⟩
    · by_cases hp : platform = Platform.win32 <;> simp [downloadTempExt, he, hp]
    · by_cases he : extnameOf pathname = "" <;> simp [downloadTempExt, hw, hne, he]
  · simp [downloadTempExt]

/-- Witness for C9 (amended): a `.tar.gz` asset on Linux keeps its (Node
`path.extname`) extension `.gz`. -/
theorem downloadTempExt_spec_witness :
    downloadTempExt Platform.linux (some "/a/b/sing-box-1.9.0-linux-amd64.tar.gz") = ".gz" := by
  have h := (downloadTempExt_spec Platform.linux "/a/b/sing-box-1.9.0-linux-amd64.tar.gz").1
    (by decide) (fun hp => absurd hp (by decide))
  rw [h]
  decide

/-! ## C10 — the IPC speed-test handler -/

/-- C10: the handler is a total function of its oracle (each per-server
probe catches its own failure; nothing is thrown per server), processes
all servers in one pass with no batching, and for distinct server ids the
resulting record has exactly one entry per configured server — the elapsed
time on success and `-1` (not null) on failure or timeout. -/
theorem speedTestHandler_spec (probe : ServerEntry → Option Nat) (servers : List ServerEntry)
    (hnd : (servers.map ServerEntry.id).Nodup) :
    ((speedTestHandler probe servers).map Prod.fst).Nodup ∧
    (∀ x, x ∈ (speedTestHandler probe servers).map Prod.fst ↔
      x ∈ servers.map ServerEntry.id) ∧
    (∀ s ∈ servers, lookupKey (speedTestHandler probe servers) s.id
      = some (tcpScore (probe s))) ∧
    (∀ s ∈ servers, probe s = none →
      lookupKey (speedTestHandler probe servers) s.id = some (-1)) := by
  refine ⟨?_, ?_, ?_, ?_⟩
  · exact foldl_mapSet_keys_nodup ServerEntry.id (fun s => tcpScore (probe s))
      servers [] (by simp)
  · intro x
    have h := foldl_mapSet_keys_mem ServerEntry.id (fun s => tcpScore (probe s))
      servers [] x
    simpa using h
  · intro s hs
    exact foldl_mapSet_lookup ServerEntry.id (fun s => tcpScore (probe s))
      servers [] hnd s hs
  · intro s hs hp
    have h := foldl_mapSet_lookup ServerEntry.id (fun s => tcpScore (probe s))
      servers [] hnd s hs
    simpa [hp, tcpScore] using h

def demoEntry (i : String) (p : Nat) : ServerEntry :=
  ⟨i, "203.0.113." ++ i, p⟩

/-- Probe oracle for the C10 witness: server `a` connects in 37ms, server
`b` fails. -/
def demoProbe : ServerEntry → Option Nat :=
  fun s => if s.id = "a" then some 37 else none

/-- Witness for C10 on two concrete servers. -/
theorem speedTestHandler_spec_witness :
    lookupKey (speedTestHandler demoProbe [demoEntry "a" 443, demoEntry "b" 8443]) "a"
      = some 37 ∧
    lookupKey (speedTestHandler demoProbe [demoEntry "a" 443, demoEntry "b" 8443]) "b"
      = some (-1) := by
  have h := speedTestHandler_spec demoProbe [demoEntry "a" 443, demoEntry "b" 8443] (by decide)
  constructor
  · have ha := h.2.2.1 (demoEntry "a" 443) (by simp)
    simpa [demoProbe, demoEntry, tcpScore] using ha
  · have hb := h.2.2.2 (demoEntry "b" 8443) (by simp) (by decide)
    simpa [demoEntry] using hb

end Flowz
